import Mathlib

/-!
Verification of the inertial position-estimation pipeline of the
SensorScope position page (src/js/pages/position.js).

The motion-sample ingestion path is embedded as a pure step function
over an explicit estimator state.  JavaScript numbers are modelled as
real numbers; Math.sqrt, Math.sin, Math.cos become Real.sqrt, Real.sin,
Real.cos.  The definitions follow the source line by line.
-/

namespace Sensor

/-- A 3-component vector, mirroring the `{x, y, z}` objects of the source. -/
@[ext]
structure Vec3 where
  x : ℝ
  y : ℝ
  z : ℝ

/-- Device attitude in radians (the orientation callback converts degrees to
radians before storing; claims are stated over the stored radian values). -/
structure Orientation where
  alpha : ℝ
  beta : ℝ
  gamma : ℝ

/-- One raw accelerometer reading (including gravity) plus its timestamp
in milliseconds. -/
structure MotionSample where
  ax : ℝ
  ay : ℝ
  az : ℝ
  timestamp : ℝ

-- Constants of src/js/pages/position.js, lines 11-20.

def GRAVITY : ℝ := 9.81

def ACCEL_DEADZONE_XY : ℝ := 0.4

def ACCEL_DEADZONE_Z : ℝ := 0.6

def ZUPT_VELOCITY_THRESHOLD : ℝ := 0.08

def ZUPT_ACCEL_THRESHOLD : ℝ := 0.6

def LP_ALPHA : ℝ := 0.15

def VELOCITY_DAMPING : ℝ := 0.97

def TRAIL_MAX : ℕ := 500

def ACCEL_BUFFER_SIZE : ℕ := 20

def CALIBRATION_SAMPLES : ℕ := 50

/-- Transform a device-frame vector to the world frame,
from `_deviceToWorld` (position.js lines 279-295). -/
noncomputable def deviceToWorld (o : Orientation) (ax ay az : ℝ) : Vec3 :=
  let sa := Real.sin o.alpha
  let ca := Real.cos o.alpha
  let sb := Real.sin o.beta
  let cb := Real.cos o.beta
  let sg := Real.sin o.gamma
  let cg := Real.cos o.gamma
  let wx := ax * (ca * cg - sa * sb * sg) + ay * (-sa * cb) + az * (ca * sg + sa * sb * cg)
  let wy := ax * (sa * cg + ca * sb * sg) + ay * (ca * cb) + az * (sa * sg - ca * sb * cg)
  let wz := ax * (-cb * sg) + ay * sb + az * (cb * cg)
  ⟨wx, wy, wz⟩

/-- Rotation about the world Z axis by angle t (standard matrix
[[cos, -sin, 0], [sin, cos, 0], [0, 0, 1]]), stated from the spec's
rotation-composition contract for comparison with the code. -/
noncomputable def rotZ (t : ℝ) (v : Vec3) : Vec3 :=
  ⟨Real.cos t * v.x - Real.sin t * v.y,
   Real.sin t * v.x + Real.cos t * v.y,
   v.z⟩

/-- Rotation about the world X axis by angle t (standard matrix
[[1, 0, 0], [0, cos, -sin], [0, sin, cos]]). -/
noncomputable def rotX (t : ℝ) (v : Vec3) : Vec3 :=
  ⟨v.x,
   Real.cos t * v.y - Real.sin t * v.z,
   Real.sin t * v.y + Real.cos t * v.z⟩

/-- Rotation about the world Y axis by angle t (standard matrix
[[cos, 0, sin], [0, 1, 0], [-sin, 0, cos]]). -/
noncomputable def rotY (t : ℝ) (v : Vec3) : Vec3 :=
  ⟨Real.cos t * v.x + Real.sin t * v.z,
   v.y,
   -Real.sin t * v.x + Real.cos t * v.z⟩

/-- C2: the frame transform is a pure function of the device-frame vector and
the orientation, returns exactly the stated matrix entries, and equals the
rotation composition Rz(alpha) * Rx(beta) * Ry(gamma) applied to the vector. -/
theorem C2_deviceToWorld_rotation (o : Orientation) (ax ay az : ℝ) :
    deviceToWorld o ax ay az =
      ⟨ax * (Real.cos o.alpha * Real.cos o.gamma -
             Real.sin o.alpha * Real.sin o.beta * Real.sin o.gamma) +
       ay * (-Real.sin o.alpha * Real.cos o.beta) +
       az * (Real.cos o.alpha * Real.sin o.gamma +
             Real.sin o.alpha * Real.sin o.beta * Real.cos o.gamma),
       ax * (Real.sin o.alpha * Real.cos o.gamma +
             Real.cos o.alpha * Real.sin o.beta * Real.sin o.gamma) +
       ay * (Real.cos o.alpha * Real.cos o.beta) +
       az * (Real.sin o.alpha * Real.sin o.gamma -
             Real.cos o.alpha * Real.sin o.beta * Real.cos o.gamma),
       ax * (-Real.cos o.beta * Real.sin o.gamma) +
       ay * Real.sin o.beta +
       az * (Real.cos o.beta * Real.cos o.gamma)⟩ ∧
    deviceToWorld o ax ay az = rotZ o.alpha (rotX o.beta (rotY o.gamma ⟨ax, ay, az⟩)) := by
  constructor
  · rfl
  · ext <;> simp only [deviceToWorld, rotZ, rotX, rotY] <;> ring

/-- One recorded trail point `{x, y, t}` (position.js line 253). -/
structure TrailPoint where
  x : ℝ
  y : ℝ
  t : ℝ

/-- One recorded height point `{t, z}` (position.js line 258). -/
structure HeightPoint where
  t : ℝ
  z : ℝ

/-- The estimator's mutable state: the per-instance fields of `PositionPage`
that the motion callback reads and writes (position.js lines 29-43; the
UI-only fields `_startTime`, `_scale` and the canvases are not part of the
estimation state). -/
structure EstState where
  pos : Vec3
  vel : Vec3
  filteredAccel : Vec3
  lastTimestamp : Option ℝ
  trail : List TrailPoint
  heightHistory : List HeightPoint
  accelBuffer : List ℝ
  calibSamples : ℕ
  accelBias : Vec3
  calibrating : Bool
  calibAccum : Vec3

/-- The initial estimator state, as established by `_reset`
(position.js lines 128-141). -/
def initState : EstState :=
  ⟨⟨0, 0, 0⟩, ⟨0, 0, 0⟩, ⟨0, 0, 0⟩, none, [], [], [], 0, ⟨0, 0, 0⟩, true, ⟨0, 0, 0⟩⟩

/-- `_reset` (position.js lines 128-141): reassigns every estimation field
to its initial value, for any prior state. -/
def reset (_ : EstState) : EstState := initState

/-- The mean of the acceleration-magnitude window, from `_detectStillness`
(position.js line 269): `reduce((s, v) => s + v, 0) / length`. -/
noncomputable def meanOf (buf : List ℝ) : ℝ := buf.sum / buf.length

/-- The population variance of the window, from `_detectStillness`
(position.js line 270). -/
noncomputable def varOf (buf : List ℝ) : ℝ :=
  (buf.map (fun v => (v - meanOf buf) ^ 2)).sum / buf.length

/-- `_detectStillness` (position.js lines 267-272): false when the window is
below capacity, else variance below 0.1 and mean below the acceleration
threshold. -/
noncomputable def detectStillness (buf : List ℝ) : Prop :=
  ¬ buf.length < ACCEL_BUFFER_SIZE ∧ varOf buf < 0.1 ∧ meanOf buf < ZUPT_ACCEL_THRESHOLD

/-- The push-then-shift idiom used for every bounded buffer
(position.js lines 221-222, 253-254, 258-259): append, and if the capacity
is now exceeded remove the oldest (front) element. -/
def pushBounded {α : Type} (cap : ℕ) (xs : List α) (a : α) : List α :=
  let ys := xs ++ [a]
  if ys.length > cap then ys.tail else ys

/-- World-frame acceleration with gravity removed
(position.js lines 176-183). -/
noncomputable def worldAccelOf (o : Orientation) (d : MotionSample) : Vec3 :=
  let w := deviceToWorld o d.ax d.ay d.az
  ⟨w.x, w.y, w.z - GRAVITY⟩

/-- The calibration branch of the motion callback
(position.js lines 186-198): accumulate the world-frame acceleration,
bump the sample count, and on reaching the threshold finalize the bias
and leave calibration. -/
noncomputable def calibStep (s : EstState) (wa : Vec3) : EstState :=
  let accum : Vec3 := ⟨s.calibAccum.x + wa.x, s.calibAccum.y + wa.y, s.calibAccum.z + wa.z⟩
  let n := s.calibSamples + 1
  if n ≥ CALIBRATION_SAMPLES then
    { s with calibAccum := accum, calibSamples := n,
             accelBias := ⟨accum.x / (n : ℝ), accum.y / (n : ℝ), accum.z / (n : ℝ)⟩,
             calibrating := false }
  else
    { s with calibAccum := accum, calibSamples := n }

open Classical in
/-- The active (post-calibration) branch of the motion callback
(position.js lines 200-259): bias correction, low-pass filter, dead zone,
stillness window update, Euler integration, damping, ZUPT, position
integration, and the history buffers. -/
noncomputable def activeStep (s : EstState) (wa : Vec3) (now dt : ℝ) : EstState :=
  let corrected : Vec3 :=
    ⟨wa.x - s.accelBias.x, wa.y - s.accelBias.y, wa.z - s.accelBias.z⟩
  let fa : Vec3 :=
    ⟨LP_ALPHA * corrected.x + (1 - LP_ALPHA) * s.filteredAccel.x,
     LP_ALPHA * corrected.y + (1 - LP_ALPHA) * s.filteredAccel.y,
     LP_ALPHA * corrected.z + (1 - LP_ALPHA) * s.filteredAccel.z⟩
  let effX := if |fa.x| > ACCEL_DEADZONE_XY then fa.x else 0
  let effY := if |fa.y| > ACCEL_DEADZONE_XY then fa.y else 0
  let effZ := if |fa.z| > ACCEL_DEADZONE_Z then fa.z else 0
  let aMag := Real.sqrt (fa.x * fa.x + fa.y * fa.y + fa.z * fa.z)
  let buf := pushBounded ACCEL_BUFFER_SIZE s.accelBuffer aMag
  let isStill := detectStillness buf
  let vel1 : Vec3 := ⟨s.vel.x + effX * dt, s.vel.y + effY * dt, s.vel.z + effZ * dt⟩
  let vel2 : Vec3 :=
    ⟨vel1.x * VELOCITY_DAMPING, vel1.y * VELOCITY_DAMPING, vel1.z * VELOCITY_DAMPING⟩
  let vMag := Real.sqrt (vel2.x ^ 2 + vel2.y ^ 2 + vel2.z ^ 2)
  let vel3 : Vec3 :=
    if isStill ∨ (vMag < ZUPT_VELOCITY_THRESHOLD ∧ aMag < ZUPT_ACCEL_THRESHOLD) then
      ⟨0, 0, 0⟩
    else vel2
  let pos : Vec3 :=
    ⟨s.pos.x + vel3.x * dt, s.pos.y + vel3.y * dt, s.pos.z + vel3.z * dt⟩
  let trail :=
    match s.trail.getLast? with
    | none => pushBounded TRAIL_MAX s.trail ⟨pos.x, pos.y, now⟩
    | some lp =>
        if now - lp.t > 50 then pushBounded TRAIL_MAX s.trail ⟨pos.x, pos.y, now⟩
        else s.trail
  let hh := pushBounded TRAIL_MAX s.heightHistory ⟨now, pos.z⟩
  { s with filteredAccel := fa, accelBuffer := buf, vel := vel3, pos := pos,
           trail := trail, heightHistory := hh }

open Classical in
/-- The motion callback of `_startSensors` (position.js lines 158-260):
first-sample handling, lastTimestamp update, dt guard, then the calibration
or active branch. -/
noncomputable def motionStep (o : Orientation) (s : EstState) (d : MotionSample) : EstState :=
  match s.lastTimestamp with
  | none => { s with lastTimestamp := some d.timestamp }
  | some last =>
      let dt := (d.timestamp - last) / 1000
      let s1 := { s with lastTimestamp := some d.timestamp }
      if dt ≤ 0 ∨ dt > 0.5 then s1
      else if s1.calibrating then calibStep s1 (worldAccelOf o d)
      else activeStep s1 (worldAccelOf o d) d.timestamp dt

/-- Folding a list of motion samples through the callback. -/
noncomputable def feed (o : Orientation) (s : EstState) (ds : List MotionSample) : EstState :=
  ds.foldl (motionStep o) s

/-- The trajectory of states under per-step orientations and samples. -/
noncomputable def traj (o : ℕ → Orientation) (d : ℕ → MotionSample) (s0 : EstState) :
    ℕ → EstState
  | 0 => s0
  | k + 1 => motionStep (o k) (traj o d s0 k) (d k)

-- Branch lemmas for motionStep.

theorem motionStep_first (o : Orientation) (s : EstState) (d : MotionSample)
    (h : s.lastTimestamp = none) :
    motionStep o s d = { s with lastTimestamp := some d.timestamp } := by
  simp only [motionStep, h]

theorem motionStep_rejected (o : Orientation) (s : EstState) (d : MotionSample) (last : ℝ)
    (h : s.lastTimestamp = some last)
    (hbad : (d.timestamp - last) / 1000 ≤ 0 ∨ (d.timestamp - last) / 1000 > 0.5) :
    motionStep o s d = { s with lastTimestamp := some d.timestamp } := by
  simp only [motionStep, h]
  rw [if_pos hbad]

theorem motionStep_calib (o : Orientation) (s : EstState) (d : MotionSample) (last : ℝ)
    (h : s.lastTimestamp = some last)
    (h0 : 0 < (d.timestamp - last) / 1000) (h5 : (d.timestamp - last) / 1000 ≤ 0.5)
    (hcal : s.calibrating = true) :
    motionStep o s d =
      calibStep { s with lastTimestamp := some d.timestamp } (worldAccelOf o d) := by
  simp only [motionStep, h]
  rw [if_neg (by push_neg; exact ⟨h0, h5⟩)]
  rw [if_pos]
  exact hcal

theorem motionStep_active (o : Orientation) (s : EstState) (d : MotionSample) (last : ℝ)
    (h : s.lastTimestamp = some last)
    (h0 : 0 < (d.timestamp - last) / 1000) (h5 : (d.timestamp - last) / 1000 ≤ 0.5)
    (hcal : s.calibrating = false) :
    motionStep o s d =
      activeStep { s with lastTimestamp := some d.timestamp } (worldAccelOf o d)
        d.timestamp ((d.timestamp - last) / 1000) := by
  simp only [motionStep, h]
  rw [if_neg (by push_neg; exact ⟨h0, h5⟩)]
  rw [if_neg]
  simp only [hcal]
  exact Bool.false_ne_true

/-- C9: reset is idempotent, and from any state it zeroes position, velocity,
filtered acceleration and bias, clears the trail, height and window buffers
and the calibration accumulator (count 0), re-enters Calibrating, and clears
lastTimestamp. -/
theorem C9_reset_idempotent_and_initial (s : EstState) :
    reset (reset s) = reset s ∧
    reset s = initState ∧
    (reset s).pos = ⟨0, 0, 0⟩ ∧
    (reset s).vel = ⟨0, 0, 0⟩ ∧
    (reset s).filteredAccel = ⟨0, 0, 0⟩ ∧
    (reset s).accelBias = ⟨0, 0, 0⟩ ∧
    (reset s).trail = [] ∧
    (reset s).heightHistory = [] ∧
    (reset s).accelBuffer = [] ∧
    (reset s).calibAccum = ⟨0, 0, 0⟩ ∧
    (reset s).calibSamples = 0 ∧
    (reset s).calibrating = true ∧
    (reset s).lastTimestamp = none :=
  ⟨rfl, rfl, rfl, rfl, rfl, rfl, rfl, rfl, rfl, rfl, rfl, rfl, rfl⟩

/-- C10: once a first sample has set lastTimestamp, every subsequent sample
overwrites lastTimestamp with its own timestamp, before the dt guard and
before the calibration branch — rejected and calibration-consumed samples
advance it too, so dt is always measured against the immediately preceding
sample. -/
theorem C10_lastTimestamp_always_advances (o : Orientation) (s : EstState)
    (d : MotionSample) (last : ℝ) (h : s.lastTimestamp = some last) :
    (motionStep o s d).lastTimestamp = some d.timestamp := by
  by_cases hbad : (d.timestamp - last) / 1000 ≤ 0 ∨ (d.timestamp - last) / 1000 > 0.5
  · rw [motionStep_rejected o s d last h hbad]
  · push_neg at hbad
    obtain ⟨h0, h5⟩ := hbad
    cases hcal : s.calibrating
    · rw [motionStep_active o s d last h h0 h5 hcal]
      rfl
    · rw [motionStep_calib o s d last h h0 h5 hcal]
      simp only [calibStep]
      split <;> rfl

/-- Witness for C10: a sample with dt = 0.6 s (rejected by the guard) still
advances lastTimestamp to 600. -/
theorem C10_witness :
    ({ initState with lastTimestamp := some 0 } : EstState).lastTimestamp = some 0 ∧
    (motionStep ⟨0, 0, 0⟩ { initState with lastTimestamp := some 0 }
        ⟨0, 0, 0, 600⟩).lastTimestamp = some 600 :=
  ⟨rfl, C10_lastTimestamp_always_advances ⟨0, 0, 0⟩ _ ⟨0, 0, 0, 600⟩ 0 rfl⟩

/-- Counterexample to C4 as stated: a sample with dt = 0.6 s is dropped, but
the estimator state is not unchanged — lastTimestamp advances from 0 to 600. -/
theorem C4_counterexample :
    motionStep ⟨0, 0, 0⟩ { initState with lastTimestamp := some 0 } ⟨0, 0, 0, 600⟩ ≠
      { initState with lastTimestamp := some 0 } := by
  intro hEq
  have h1 : (motionStep ⟨0, 0, 0⟩ { initState with lastTimestamp := some 0 }
      ⟨0, 0, 0, 600⟩).lastTimestamp = some (0 : ℝ) := by rw [hEq]
  rw [motionStep_rejected ⟨0, 0, 0⟩ _ ⟨0, 0, 0, 600⟩ 0 rfl (by norm_num)] at h1
  have h2 : ((600 : ℝ)) = 0 := Option.some.inj h1
  norm_num at h2

/-- C4 amended: a sample whose dt is non-positive or exceeds 0.5 s is dropped;
every estimator field is unchanged — in particular position and velocity —
except lastTimestamp, which is set to the sample's timestamp. -/
theorem C4_rejected_sample_only_timestamp (o : Orientation) (s : EstState)
    (d : MotionSample) (last : ℝ) (h : s.lastTimestamp = some last)
    (hbad : (d.timestamp - last) / 1000 ≤ 0 ∨ (d.timestamp - last) / 1000 > 0.5) :
    motionStep o s d = { s with lastTimestamp := some d.timestamp } ∧
    (motionStep o s d).pos = s.pos ∧
    (motionStep o s d).vel = s.vel ∧
    (motionStep o s d).filteredAccel = s.filteredAccel ∧
    (motionStep o s d).trail = s.trail ∧
    (motionStep o s d).heightHistory = s.heightHistory ∧
    (motionStep o s d).accelBuffer = s.accelBuffer ∧
    (motionStep o s d).calibSamples = s.calibSamples ∧
    (motionStep o s d).accelBias = s.accelBias ∧
    (motionStep o s d).calibrating = s.calibrating ∧
    (motionStep o s d).calibAccum = s.calibAccum := by
  rw [motionStep_rejected o s d last h hbad]
  exact ⟨rfl, rfl, rfl, rfl, rfl, rfl, rfl, rfl, rfl, rfl, rfl⟩

/-- Witness for C4's amended claim at dt = 0.6 s. -/
theorem C4_witness :
    (({ initState with lastTimestamp := some 0 } : EstState).lastTimestamp = some 0 ∧
      ((600 : ℝ) - 0) / 1000 > 0.5) ∧
    (motionStep ⟨0, 0, 0⟩ { initState with lastTimestamp := some 0 } ⟨0, 0, 0, 600⟩).vel =
      ({ initState with lastTimestamp := some 0 } : EstState).vel :=
  ⟨⟨rfl, by norm_num⟩,
   (C4_rejected_sample_only_timestamp ⟨0, 0, 0⟩ _ ⟨0, 0, 0, 600⟩ 0 rfl
      (Or.inr (by norm_num))).2.2.1⟩

/-- C5: the stillness detector reports still exactly when the window holds its
full 20-sample capacity, its population variance is below 0.1, and its mean is
below 0.6; a below-capacity window always reports not still. -/
theorem C5_detectStillness_iff (buf : List ℝ) (h : buf.length ≤ ACCEL_BUFFER_SIZE) :
    (detectStillness buf ↔
      buf.length = 20 ∧ varOf buf < 0.1 ∧ meanOf buf < 0.6) ∧
    (buf.length < 20 → ¬ detectStillness buf) := by
  unfold detectStillness
  unfold ACCEL_BUFFER_SIZE at h ⊢
  unfold ZUPT_ACCEL_THRESHOLD
  constructor
  · constructor
    · rintro ⟨hlen, hv, hm⟩
      exact ⟨by omega, hv, hm⟩
    · rintro ⟨hlen, hv, hm⟩
      exact ⟨by omega, hv, hm⟩
  · rintro hlt ⟨hlen, -, -⟩
    omega

/-- Witness for C5 at a full window of 20 zero magnitudes. -/
theorem C5_witness :
    (List.replicate 20 (0 : ℝ)).length ≤ ACCEL_BUFFER_SIZE ∧
    ((detectStillness (List.replicate 20 (0 : ℝ)) ↔
        (List.replicate 20 (0 : ℝ)).length = 20 ∧
        varOf (List.replicate 20 (0 : ℝ)) < 0.1 ∧
        meanOf (List.replicate 20 (0 : ℝ)) < 0.6) ∧
      ((List.replicate 20 (0 : ℝ)).length < 20 →
        ¬ detectStillness (List.replicate 20 (0 : ℝ)))) :=
  ⟨by simp [ACCEL_BUFFER_SIZE],
   C5_detectStillness_iff (List.replicate 20 (0 : ℝ)) (by simp [ACCEL_BUFFER_SIZE])⟩

open Classical in
/-- C1: on an accepted Active-mode sample the integrator performs, in order,
Euler integration of the dead-zoned filtered acceleration into velocity, then
damping by 0.97 per axis, then the ZUPT hard reset of velocity to the exact
zero vector when the stillness detector fires or both the velocity magnitude
is below 0.08 and the filtered-acceleration magnitude is below 0.6, and
finally position integration with the post-ZUPT velocity. -/
theorem C1_integration_order (o : Orientation) (s : EstState) (d : MotionSample) (last : ℝ)
    (h : s.lastTimestamp = some last) (hcal : s.calibrating = false)
    (h0 : 0 < (d.timestamp - last) / 1000) (h5 : (d.timestamp - last) / 1000 ≤ 0.5) :
    let dt := (d.timestamp - last) / 1000
    let s' := motionStep o s d
    let fa := s'.filteredAccel
    let effX := if |fa.x| > ACCEL_DEADZONE_XY then fa.x else 0
    let effY := if |fa.y| > ACCEL_DEADZONE_XY then fa.y else 0
    let effZ := if |fa.z| > ACCEL_DEADZONE_Z then fa.z else 0
    let v1 : Vec3 := ⟨s.vel.x + effX * dt, s.vel.y + effY * dt, s.vel.z + effZ * dt⟩
    let v2 : Vec3 :=
      ⟨v1.x * VELOCITY_DAMPING, v1.y * VELOCITY_DAMPING, v1.z * VELOCITY_DAMPING⟩
    let aMag := Real.sqrt (fa.x * fa.x + fa.y * fa.y + fa.z * fa.z)
    let vMag := Real.sqrt (v2.x ^ 2 + v2.y ^ 2 + v2.z ^ 2)
    let v3 : Vec3 :=
      if detectStillness s'.accelBuffer ∨
          (vMag < ZUPT_VELOCITY_THRESHOLD ∧ aMag < ZUPT_ACCEL_THRESHOLD) then
        ⟨0, 0, 0⟩
      else v2
    VELOCITY_DAMPING = 0.97 ∧
    ZUPT_VELOCITY_THRESHOLD = 0.08 ∧
    ZUPT_ACCEL_THRESHOLD = 0.6 ∧
    s'.vel = v3 ∧
    s'.pos = ⟨s.pos.x + v3.x * dt, s.pos.y + v3.y * dt, s.pos.z + v3.z * dt⟩ := by
  rw [motionStep_active o s d last h h0 h5 hcal]
  exact ⟨rfl, rfl, rfl, rfl, rfl⟩

open Classical in
/-- Witness for C1 at a concrete Active-mode state and an accepted sample
with dt = 0.1 s. -/
theorem C1_witness :
    (({ initState with lastTimestamp := some 0, calibrating := false } :
        EstState).lastTimestamp = some 0 ∧
      ({ initState with lastTimestamp := some 0, calibrating := false } :
        EstState).calibrating = false ∧
      0 < (((⟨0, 0, 0, 100⟩ : MotionSample).timestamp - 0) / 1000) ∧
      (((⟨0, 0, 0, 100⟩ : MotionSample).timestamp - 0) / 1000) ≤ 0.5) ∧
    (let s0 : EstState := { initState with lastTimestamp := some 0, calibrating := false }
     let d0 : MotionSample := ⟨0, 0, 0, 100⟩
     let dt := (d0.timestamp - 0) / 1000
     let s' := motionStep ⟨0, 0, 0⟩ s0 d0
     let fa := s'.filteredAccel
     let effX := if |fa.x| > ACCEL_DEADZONE_XY then fa.x else 0
     let effY := if |fa.y| > ACCEL_DEADZONE_XY then fa.y else 0
     let effZ := if |fa.z| > ACCEL_DEADZONE_Z then fa.z else 0
     let v1 : Vec3 := ⟨s0.vel.x + effX * dt, s0.vel.y + effY * dt, s0.vel.z + effZ * dt⟩
     let v2 : Vec3 :=
       ⟨v1.x * VELOCITY_DAMPING, v1.y * VELOCITY_DAMPING, v1.z * VELOCITY_DAMPING⟩
     let aMag := Real.sqrt (fa.x * fa.x + fa.y * fa.y + fa.z * fa.z)
     let vMag := Real.sqrt (v2.x ^ 2 + v2.y ^ 2 + v2.z ^ 2)
     let v3 : Vec3 :=
       if detectStillness s'.accelBuffer ∨
           (vMag < ZUPT_VELOCITY_THRESHOLD ∧ aMag < ZUPT_ACCEL_THRESHOLD) then
         ⟨0, 0, 0⟩
       else v2
     s'.vel = v3 ∧
     s'.pos = ⟨s0.pos.x + v3.x * dt, s0.pos.y + v3.y * dt, s0.pos.z + v3.z * dt⟩) :=
  ⟨⟨rfl, rfl, by norm_num, by norm_num⟩,
   ((C1_integration_order ⟨0, 0, 0⟩
      { initState with lastTimestamp := some 0, calibrating := false }
      ⟨0, 0, 0, 100⟩ 0 rfl rfl (by norm_num) (by norm_num)).2.2.2 :)⟩

open Classical in
/-- C6: in Active mode, signal conditioning is the exponential low-pass
filteredAccel = 0.15·corrected + 0.85·filteredAccel per axis followed by the
per-axis dead zone: an axis enters integration only when its absolute value
exceeds 0.4 (x, y) or 0.6 (z), and is integrated as exactly zero otherwise. -/
theorem C6_signal_conditioning (o : Orientation) (s : EstState) (d : MotionSample) (last : ℝ)
    (h : s.lastTimestamp = some last) (hcal : s.calibrating = false)
    (h0 : 0 < (d.timestamp - last) / 1000) (h5 : (d.timestamp - last) / 1000 ≤ 0.5) :
    let dt := (d.timestamp - last) / 1000
    let s' := motionStep o s d
    let wa := worldAccelOf o d
    let corrected : Vec3 :=
      ⟨wa.x - s.accelBias.x, wa.y - s.accelBias.y, wa.z - s.accelBias.z⟩
    let fa := s'.filteredAccel
    let effX := if |fa.x| > ACCEL_DEADZONE_XY then fa.x else 0
    let effY := if |fa.y| > ACCEL_DEADZONE_XY then fa.y else 0
    let effZ := if |fa.z| > ACCEL_DEADZONE_Z then fa.z else 0
    LP_ALPHA = 0.15 ∧
    1 - LP_ALPHA = 0.85 ∧
    ACCEL_DEADZONE_XY = 0.4 ∧
    ACCEL_DEADZONE_Z = 0.6 ∧
    fa = ⟨LP_ALPHA * corrected.x + (1 - LP_ALPHA) * s.filteredAccel.x,
          LP_ALPHA * corrected.y + (1 - LP_ALPHA) * s.filteredAccel.y,
          LP_ALPHA * corrected.z + (1 - LP_ALPHA) * s.filteredAccel.z⟩ ∧
    s'.vel =
      (if detectStillness s'.accelBuffer ∨
          (Real.sqrt (((s.vel.x + effX * dt) * VELOCITY_DAMPING) ^ 2 +
              ((s.vel.y + effY * dt) * VELOCITY_DAMPING) ^ 2 +
              ((s.vel.z + effZ * dt) * VELOCITY_DAMPING) ^ 2) < ZUPT_VELOCITY_THRESHOLD ∧
            Real.sqrt (fa.x * fa.x + fa.y * fa.y + fa.z * fa.z) < ZUPT_ACCEL_THRESHOLD) then
        (⟨0, 0, 0⟩ : Vec3)
      else
        ⟨(s.vel.x + effX * dt) * VELOCITY_DAMPING,
         (s.vel.y + effY * dt) * VELOCITY_DAMPING,
         (s.vel.z + effZ * dt) * VELOCITY_DAMPING⟩) := by
  rw [motionStep_active o s d last h h0 h5 hcal]
  exact ⟨rfl, by norm_num [LP_ALPHA], rfl, rfl, rfl, rfl⟩

open Classical in
/-- Witness for C6 at a concrete Active-mode state and an accepted sample
with dt = 0.2 s. -/
theorem C6_witness :
    (({ initState with lastTimestamp := some 0, calibrating := false } :
        EstState).lastTimestamp = some 0 ∧
      ({ initState with lastTimestamp := some 0, calibrating := false } :
        EstState).calibrating = false ∧
      0 < (((⟨0, 0, 9.81, 200⟩ : MotionSample).timestamp - 0) / 1000) ∧
      (((⟨0, 0, 9.81, 200⟩ : MotionSample).timestamp - 0) / 1000) ≤ 0.5) ∧
    (let s0 : EstState := { initState with lastTimestamp := some 0, calibrating := false }
     let d0 : MotionSample := ⟨0, 0, 9.81, 200⟩
     let dt := (d0.timestamp - 0) / 1000
     let s' := motionStep ⟨0, 0, 0⟩ s0 d0
     let wa := worldAccelOf ⟨0, 0, 0⟩ d0
     let corrected : Vec3 :=
       ⟨wa.x - s0.accelBias.x, wa.y - s0.accelBias.y, wa.z - s0.accelBias.z⟩
     let fa := s'.filteredAccel
     let effX := if |fa.x| > ACCEL_DEADZONE_XY then fa.x else 0
     let effY := if |fa.y| > ACCEL_DEADZONE_XY then fa.y else 0
     let effZ := if |fa.z| > ACCEL_DEADZONE_Z then fa.z else 0
     LP_ALPHA = 0.15 ∧
     1 - LP_ALPHA = 0.85 ∧
     ACCEL_DEADZONE_XY = 0.4 ∧
     ACCEL_DEADZONE_Z = 0.6 ∧
     fa = ⟨LP_ALPHA * corrected.x + (1 - LP_ALPHA) * s0.filteredAccel.x,
           LP_ALPHA * corrected.y + (1 - LP_ALPHA) * s0.filteredAccel.y,
           LP_ALPHA * corrected.z + (1 - LP_ALPHA) * s0.filteredAccel.z⟩ ∧
     s'.vel =
       (if detectStillness s'.accelBuffer ∨
           (Real.sqrt (((s0.vel.x + effX * dt) * VELOCITY_DAMPING) ^ 2 +
               ((s0.vel.y + effY * dt) * VELOCITY_DAMPING) ^ 2 +
               ((s0.vel.z + effZ * dt) * VELOCITY_DAMPING) ^ 2) < ZUPT_VELOCITY_THRESHOLD ∧
             Real.sqrt (fa.x * fa.x + fa.y * fa.y + fa.z * fa.z) < ZUPT_ACCEL_THRESHOLD) then
         (⟨0, 0, 0⟩ : Vec3)
       else
         ⟨(s0.vel.x + effX * dt) * VELOCITY_DAMPING,
          (s0.vel.y + effY * dt) * VELOCITY_DAMPING,
          (s0.vel.z + effZ * dt) * VELOCITY_DAMPING⟩)) :=
  ⟨⟨rfl, rfl, by norm_num, by norm_num⟩,
   C6_signal_conditioning ⟨0, 0, 0⟩
     { initState with lastTimestamp := some 0, calibrating := false }
     ⟨0, 0, 9.81, 200⟩ 0 rfl rfl (by norm_num) (by norm_num)⟩

-- Facts about the bounded-push idiom.

theorem pushBounded_eq_drop {α : Type} (cap : ℕ) (xs : List α) (a : α)
    (h : xs.length ≤ cap) :
    pushBounded cap xs a = (xs ++ [a]).drop (xs.length + 1 - cap) := by
  unfold pushBounded
  by_cases hl : (xs ++ [a]).length > cap
  · rw [if_pos hl]
    simp only [List.length_append, List.length_singleton] at hl
    have h1 : xs.length + 1 - cap = 1 := by omega
    rw [h1, ← List.drop_one]
  · rw [if_neg hl]
    simp only [List.length_append, List.length_singleton] at hl
    have h0 : xs.length + 1 - cap = 0 := by omega
    rw [h0, List.drop_zero]

theorem pushBounded_length {α : Type} (cap : ℕ) (xs : List α) (a : α)
    (h : xs.length ≤ cap) :
    (pushBounded cap xs a).length ≤ cap := by
  unfold pushBounded
  by_cases hl : (xs ++ [a]).length > cap
  · rw [if_pos hl]
    simp only [List.length_tail, List.length_append, List.length_singleton] at *
    omega
  · rw [if_neg hl]
    simp only [List.length_append, List.length_singleton] at *
    omega

-- Projections of the active step used by the buffer claims.

theorem activeStep_heightHistory (s : EstState) (wa : Vec3) (now dt : ℝ) :
    (activeStep s wa now dt).heightHistory =
      pushBounded TRAIL_MAX s.heightHistory ⟨now, (activeStep s wa now dt).pos.z⟩ := rfl

theorem activeStep_accelBuffer (s : EstState) (wa : Vec3) (now dt : ℝ) :
    (activeStep s wa now dt).accelBuffer =
      pushBounded ACCEL_BUFFER_SIZE s.accelBuffer
        (Real.sqrt ((activeStep s wa now dt).filteredAccel.x *
            (activeStep s wa now dt).filteredAccel.x +
          (activeStep s wa now dt).filteredAccel.y *
            (activeStep s wa now dt).filteredAccel.y +
          (activeStep s wa now dt).filteredAccel.z *
            (activeStep s wa now dt).filteredAccel.z)) := rfl

theorem activeStep_trail (s : EstState) (wa : Vec3) (now dt : ℝ) :
    (activeStep s wa now dt).trail =
      match s.trail.getLast? with
      | none =>
          pushBounded TRAIL_MAX s.trail
            ⟨(activeStep s wa now dt).pos.x, (activeStep s wa now dt).pos.y, now⟩
      | some lp =>
          if now - lp.t > 50 then
            pushBounded TRAIL_MAX s.trail
              ⟨(activeStep s wa now dt).pos.x, (activeStep s wa now dt).pos.y, now⟩
          else s.trail := rfl

/-- C8: on every accepted Active-mode step the height sequence gets the new
point unconditionally and the trail gets the new point exactly when the trail
is empty or more than 50 ms has elapsed since its last point (so an append
implies at least 50 ms elapsed); all three buffers stay within capacity
(trail and height 500, window 20), the oldest entry being dropped from the
front when a capacity would be exceeded. -/
theorem C8_history_buffers (o : Orientation) (s : EstState) (d : MotionSample) (last : ℝ)
    (h : s.lastTimestamp = some last) (hcal : s.calibrating = false)
    (h0 : 0 < (d.timestamp - last) / 1000) (h5 : (d.timestamp - last) / 1000 ≤ 0.5)
    (htr : s.trail.length ≤ TRAIL_MAX) (hhh : s.heightHistory.length ≤ TRAIL_MAX)
    (hab : s.accelBuffer.length ≤ ACCEL_BUFFER_SIZE) :
    let s' := motionStep o s d
    TRAIL_MAX = 500 ∧
    ACCEL_BUFFER_SIZE = 20 ∧
    s'.heightHistory =
      (s.heightHistory ++ [(⟨d.timestamp, s'.pos.z⟩ : HeightPoint)]).drop
        (s.heightHistory.length + 1 - TRAIL_MAX) ∧
    (s.trail = [] →
      s'.trail =
        (s.trail ++ [(⟨s'.pos.x, s'.pos.y, d.timestamp⟩ : TrailPoint)]).drop
          (s.trail.length + 1 - TRAIL_MAX)) ∧
    (∀ lp, s.trail.getLast? = some lp →
      (d.timestamp - lp.t > 50 →
        s'.trail =
          (s.trail ++ [(⟨s'.pos.x, s'.pos.y, d.timestamp⟩ : TrailPoint)]).drop
            (s.trail.length + 1 - TRAIL_MAX)) ∧
      (¬ d.timestamp - lp.t > 50 → s'.trail = s.trail)) ∧
    s'.trail.length ≤ TRAIL_MAX ∧
    s'.heightHistory.length ≤ TRAIL_MAX ∧
    s'.accelBuffer.length ≤ ACCEL_BUFFER_SIZE := by
  rw [motionStep_active o s d last h h0 h5 hcal]
  refine ⟨rfl, rfl, ?_, ?_, ?_, ?_, ?_, ?_⟩
  · rw [activeStep_heightHistory]
    exact pushBounded_eq_drop TRAIL_MAX s.heightHistory _ hhh
  · intro hemp
    rw [activeStep_trail]
    have hL : s.trail.getLast? = none := by rw [hemp]; rfl
    simp only [hL]
    exact pushBounded_eq_drop TRAIL_MAX s.trail _ htr
  · intro lp hL
    simp only [activeStep_trail, hL]
    constructor
    · intro hc
      rw [if_pos hc]
      exact pushBounded_eq_drop TRAIL_MAX s.trail _ htr
    · intro hc
      rw [if_neg hc]
  · rw [activeStep_trail]
    cases hL : s.trail.getLast? with
    | none =>
        simp only []
        exact pushBounded_length TRAIL_MAX s.trail _ htr
    | some lp =>
        simp only []
        by_cases hc : d.timestamp - lp.t > 50
        · rw [if_pos hc]
          exact pushBounded_length TRAIL_MAX s.trail _ htr
        · rw [if_neg hc]
          exact htr
  · rw [activeStep_heightHistory]
    exact pushBounded_length TRAIL_MAX s.heightHistory _ hhh
  · rw [activeStep_accelBuffer]
    exact pushBounded_length ACCEL_BUFFER_SIZE s.accelBuffer _ hab

/-- Witness for C8 at a concrete Active-mode state with empty buffers and an
accepted sample with dt = 0.1 s. -/
theorem C8_witness :
    (({ initState with lastTimestamp := some 0, calibrating := false } :
        EstState).lastTimestamp = some 0 ∧
      ({ initState with lastTimestamp := some 0, calibrating := false } :
        EstState).calibrating = false ∧
      0 < (((⟨0, 0, 0, 100⟩ : MotionSample).timestamp - 0) / 1000) ∧
      (((⟨0, 0, 0, 100⟩ : MotionSample).timestamp - 0) / 1000) ≤ 0.5 ∧
      ({ initState with lastTimestamp := some 0, calibrating := false } :
        EstState).trail.length ≤ TRAIL_MAX ∧
      ({ initState with lastTimestamp := some 0, calibrating := false } :
        EstState).heightHistory.length ≤ TRAIL_MAX ∧
      ({ initState with lastTimestamp := some 0, calibrating := false } :
        EstState).accelBuffer.length ≤ ACCEL_BUFFER_SIZE) ∧
    (let s0 : EstState := { initState with lastTimestamp := some 0, calibrating := false }
     let d0 : MotionSample := ⟨0, 0, 0, 100⟩
     let s' := motionStep ⟨0, 0, 0⟩ s0 d0
     TRAIL_MAX = 500 ∧
     ACCEL_BUFFER_SIZE = 20 ∧
     s'.heightHistory =
       (s0.heightHistory ++ [(⟨d0.timestamp, s'.pos.z⟩ : HeightPoint)]).drop
         (s0.heightHistory.length + 1 - TRAIL_MAX) ∧
     (s0.trail = [] →
       s'.trail =
         (s0.trail ++ [(⟨s'.pos.x, s'.pos.y, d0.timestamp⟩ : TrailPoint)]).drop
           (s0.trail.length + 1 - TRAIL_MAX)) ∧
     (∀ lp, s0.trail.getLast? = some lp →
       (d0.timestamp - lp.t > 50 →
         s'.trail =
           (s0.trail ++ [(⟨s'.pos.x, s'.pos.y, d0.timestamp⟩ : TrailPoint)]).drop
             (s0.trail.length + 1 - TRAIL_MAX)) ∧
       (¬ d0.timestamp - lp.t > 50 → s'.trail = s0.trail)) ∧
     s'.trail.length ≤ TRAIL_MAX ∧
     s'.heightHistory.length ≤ TRAIL_MAX ∧
     s'.accelBuffer.length ≤ ACCEL_BUFFER_SIZE) :=
  ⟨⟨rfl, rfl, by norm_num, by norm_num, by simp [initState, TRAIL_MAX],
    by simp [initState, TRAIL_MAX], by simp [initState, ACCEL_BUFFER_SIZE]⟩,
   C8_history_buffers ⟨0, 0, 0⟩
     { initState with lastTimestamp := some 0, calibrating := false }
     ⟨0, 0, 0, 100⟩ 0 rfl rfl (by norm_num) (by norm_num)
     (by simp [initState, TRAIL_MAX]) (by simp [initState, TRAIL_MAX])
     (by simp [initState, ACCEL_BUFFER_SIZE])⟩

-- Calibration: helper lemmas.

theorem worldAccelOf_zero (d : MotionSample) :
    worldAccelOf ⟨0, 0, 0⟩ d = ⟨d.ax, d.ay, d.az - GRAVITY⟩ := by
  unfold worldAccelOf deviceToWorld
  ext <;> simp

theorem calibStep_eq (s : EstState) (wa : Vec3) :
    calibStep s wa =
      if s.calibSamples + 1 ≥ CALIBRATION_SAMPLES then
        { s with
            calibAccum :=
              ⟨s.calibAccum.x + wa.x, s.calibAccum.y + wa.y, s.calibAccum.z + wa.z⟩,
            calibSamples := s.calibSamples + 1,
            accelBias :=
              ⟨(s.calibAccum.x + wa.x) / ((s.calibSamples + 1 : ℕ) : ℝ),
               (s.calibAccum.y + wa.y) / ((s.calibSamples + 1 : ℕ) : ℝ),
               (s.calibAccum.z + wa.z) / ((s.calibSamples + 1 : ℕ) : ℝ)⟩,
            calibrating := false }
      else
        { s with
            calibAccum :=
              ⟨s.calibAccum.x + wa.x, s.calibAccum.y + wa.y, s.calibAccum.z + wa.z⟩,
            calibSamples := s.calibSamples + 1 } := rfl

theorem feed_append (o : Orientation) (s : EstState) (l1 l2 : List MotionSample) :
    feed o s (l1 ++ l2) = feed o (feed o s l1) l2 := by
  simp [feed]

theorem feed_single (o : Orientation) (s : EstState) (d : MotionSample) :
    feed o s [d] = motionStep o s d := rfl

theorem feed_nil (o : Orientation) (s : EstState) : feed o s [] = s := rfl

/-- The scenario feed for calibration convergence: k identical stationary
device-frame samples (zero orientation, gravity-inclusive z) at 10 Hz · 100 ms
spacing, starting one sample after t0. -/
noncomputable def calibFeed (k : ℕ) (vx vy vz t0 : ℝ) : List MotionSample :=
  (List.range k).map
    (fun (i : ℕ) => (⟨vx, vy, vz + GRAVITY, t0 + 100 * ((i : ℝ) + 1)⟩ : MotionSample))

theorem calibFeed_succ (k : ℕ) (vx vy vz t0 : ℝ) :
    calibFeed (k + 1) vx vy vz t0 =
      calibFeed k vx vy vz t0 ++ [⟨vx, vy, vz + GRAVITY, t0 + 100 * ((k : ℝ) + 1)⟩] := by
  unfold calibFeed
  rw [List.range_succ, List.map_append]
  rfl

theorem calibFeed_invariant (vx vy vz t0 : ℝ) (k : ℕ) (hk : k ≤ CALIBRATION_SAMPLES) :
    (feed ⟨0, 0, 0⟩ { initState with lastTimestamp := some t0 }
        (calibFeed k vx vy vz t0)).calibSamples = k ∧
    (feed ⟨0, 0, 0⟩ { initState with lastTimestamp := some t0 }
        (calibFeed k vx vy vz t0)).calibAccum =
      ⟨(k : ℝ) * vx, (k : ℝ) * vy, (k : ℝ) * vz⟩ ∧
    ((feed ⟨0, 0, 0⟩ { initState with lastTimestamp := some t0 }
        (calibFeed k vx vy vz t0)).calibrating = true ↔ k < CALIBRATION_SAMPLES) ∧
    (feed ⟨0, 0, 0⟩ { initState with lastTimestamp := some t0 }
        (calibFeed k vx vy vz t0)).vel = ⟨0, 0, 0⟩ ∧
    (feed ⟨0, 0, 0⟩ { initState with lastTimestamp := some t0 }
        (calibFeed k vx vy vz t0)).pos = ⟨0, 0, 0⟩ ∧
    (feed ⟨0, 0, 0⟩ { initState with lastTimestamp := some t0 }
        (calibFeed k vx vy vz t0)).lastTimestamp = some (t0 + 100 * (k : ℝ)) ∧
    (k = CALIBRATION_SAMPLES →
      (feed ⟨0, 0, 0⟩ { initState with lastTimestamp := some t0 }
        (calibFeed k vx vy vz t0)).accelBias = ⟨vx, vy, vz⟩) ∧
    (k < CALIBRATION_SAMPLES →
      (feed ⟨0, 0, 0⟩ { initState with lastTimestamp := some t0 }
        (calibFeed k vx vy vz t0)).accelBias = ⟨0, 0, 0⟩) := by
  induction k with
  | zero =>
      have h0 : calibFeed 0 vx vy vz t0 = [] := rfl
      rw [h0, feed_nil]
      refine ⟨rfl, by ext <;> simp [initState], by simp [initState, CALIBRATION_SAMPLES],
        rfl, rfl, by simp, ?_, ?_⟩
      · intro hcontra
        exact absurd hcontra (by norm_num [CALIBRATION_SAMPLES])
      · intro _
        rfl
  | succ k ih =>
      have hk' : k ≤ CALIBRATION_SAMPLES := Nat.le_of_succ_le hk
      have hklt : k < CALIBRATION_SAMPLES := hk
      obtain ⟨hsamp, haccum, hcaliff, hvel, hpos, hlast, -, hbias0⟩ := ih hk'
      have hcal : (feed ⟨0, 0, 0⟩ { initState with lastTimestamp := some t0 }
          (calibFeed k vx vy vz t0)).calibrating = true := hcaliff.mpr hklt
      rw [calibFeed_succ, feed_append, feed_single]
      have hdt : ((t0 + 100 * ((k : ℝ) + 1)) - (t0 + 100 * (k : ℝ))) / 1000 = 1 / 10 := by
        ring
      rw [motionStep_calib ⟨0, 0, 0⟩ _ _ (t0 + 100 * (k : ℝ)) hlast
        (by rw [show ((⟨vx, vy, vz + GRAVITY, t0 + 100 * ((k : ℝ) + 1)⟩ :
            MotionSample).timestamp - (t0 + 100 * (k : ℝ))) / 1000 = 1 / 10 from hdt]
            norm_num)
        (by rw [show ((⟨vx, vy, vz + GRAVITY, t0 + 100 * ((k : ℝ) + 1)⟩ :
            MotionSample).timestamp - (t0 + 100 * (k : ℝ))) / 1000 = 1 / 10 from hdt]
            norm_num)
        hcal]
      rw [calibStep_eq]
      rw [worldAccelOf_zero]
      by_cases hreach : k + 1 ≥ CALIBRATION_SAMPLES
      · rw [if_pos (by simpa [hsamp] using hreach)]
        have hk50 : k + 1 = CALIBRATION_SAMPLES := le_antisymm hk hreach
        refine ⟨by simp [hsamp], ?_, ?_, by simp [hvel], by simp [hpos], by push_cast; ring_nf, ?_, ?_⟩
        · simp only [hsamp, haccum]
          ext <;> · simp
                    push_cast
                    ring
        · simp [CALIBRATION_SAMPLES] at hk50 ⊢
          omega
        · intro _
          simp only [hsamp, haccum]
          have hb0 : (feed ⟨0, 0, 0⟩ { initState with lastTimestamp := some t0 }
              (calibFeed k vx vy vz t0)).accelBias = ⟨0, 0, 0⟩ := hbias0 hklt
          have hne : ((k : ℝ) + 1) ≠ 0 := by positivity
          ext <;> · simp
                    push_cast
                    field_simp
                    ring
        · intro hcontra
          omega
      · rw [if_neg (by simpa [hsamp] using hreach)]
        push_neg at hreach
        refine ⟨by simp [hsamp], ?_, ?_, by simp [hvel], by simp [hpos], by push_cast; ring_nf, ?_, ?_⟩
        · simp only [hsamp, haccum]
          ext <;> · simp
                    push_cast
                    ring
        · simp only []
          constructor
          · intro _
            omega
          · intro _
            exact hcal
        · intro hcontra
          omega
        · intro _
          simp only []
          exact hbias0 hklt

/-- C3: while Calibrating, every valid-dt sample is consumed entirely — the
world-frame gravity-subtracted acceleration is added to the accumulator, the
count is incremented, velocity and position are untouched — and when the
count reaches 50 the bias becomes accumulator/count and the mode becomes
Active; feeding exactly 50 identical stationary world-frame vectors yields a
bias equal to that vector, with the Calibrating-to-Active transition
occurring exactly once (Calibrating up to sample 49, Active at sample 50). -/
theorem C3_bias_calibration (o : Orientation) (s : EstState) (d : MotionSample) (last : ℝ)
    (h : s.lastTimestamp = some last) (hcal : s.calibrating = true)
    (h0 : 0 < (d.timestamp - last) / 1000) (h5 : (d.timestamp - last) / 1000 ≤ 0.5)
    (vx vy vz t0 : ℝ) (k : ℕ) (hk : k ≤ CALIBRATION_SAMPLES) :
    (let s' := motionStep o s d
     let wa := worldAccelOf o d
     s'.vel = s.vel ∧
     s'.pos = s.pos ∧
     s'.calibSamples = s.calibSamples + 1 ∧
     s'.calibAccum =
       ⟨s.calibAccum.x + wa.x, s.calibAccum.y + wa.y, s.calibAccum.z + wa.z⟩ ∧
     (s'.calibrating = false ↔ s.calibSamples + 1 ≥ CALIBRATION_SAMPLES) ∧
     (s.calibSamples + 1 ≥ CALIBRATION_SAMPLES →
       s'.accelBias =
         ⟨s'.calibAccum.x / ((s.calibSamples + 1 : ℕ) : ℝ),
          s'.calibAccum.y / ((s.calibSamples + 1 : ℕ) : ℝ),
          s'.calibAccum.z / ((s.calibSamples + 1 : ℕ) : ℝ)⟩)) ∧
    (let sk := feed ⟨0, 0, 0⟩ { initState with lastTimestamp := some t0 }
        (calibFeed k vx vy vz t0)
     sk.calibSamples = k ∧
     sk.vel = ⟨0, 0, 0⟩ ∧
     sk.pos = ⟨0, 0, 0⟩ ∧
     (k < CALIBRATION_SAMPLES → sk.calibrating = true) ∧
     (k = CALIBRATION_SAMPLES → sk.calibrating = false ∧ sk.accelBias = ⟨vx, vy, vz⟩)) := by
  constructor
  · rw [motionStep_calib o s d last h h0 h5 hcal, calibStep_eq]
    by_cases hreach : s.calibSamples + 1 ≥ CALIBRATION_SAMPLES
    · rw [if_pos (show ({ s with lastTimestamp := some d.timestamp } :
        EstState).calibSamples + 1 ≥ CALIBRATION_SAMPLES from hreach)]
      refine ⟨rfl, rfl, rfl, rfl, ?_, ?_⟩
      · exact ⟨fun _ => hreach, fun _ => rfl⟩
      · intro _
        rfl
    · rw [if_neg (show ¬ ({ s with lastTimestamp := some d.timestamp } :
        EstState).calibSamples + 1 ≥ CALIBRATION_SAMPLES from hreach)]
      refine ⟨rfl, rfl, rfl, rfl, ?_, ?_⟩
      · constructor
        · intro hfalse
          rw [show ({ s with calibAccum := _, calibSamples := _ } : EstState).calibrating =
            s.calibrating from rfl, hcal] at hfalse
          exact absurd hfalse (by simp)
        · intro hcond
          exact absurd hcond hreach
      · intro hcond
        exact absurd hcond hreach
  · obtain ⟨hsamp, -, hcaliff, hvel, hpos, -, hbias50, -⟩ :=
      calibFeed_invariant vx vy vz t0 k hk
    refine ⟨hsamp, hvel, hpos, ?_, ?_⟩
    · intro hklt
      exact hcaliff.mpr hklt
    · intro hk50
      constructor
      · cases hb : (feed ⟨0, 0, 0⟩ { initState with lastTimestamp := some t0 }
            (calibFeed k vx vy vz t0)).calibrating
        · rfl
        · exact absurd (hcaliff.mp hb) (by omega)
      · exact hbias50 hk50

/-- Witness for C3: a calibration step on a concrete sample, and the 50-sample
stationary feed with world vector (1, 2, 3). -/
theorem C3_witness :
    (({ initState with lastTimestamp := some 0 } : EstState).lastTimestamp = some 0 ∧
      ({ initState with lastTimestamp := some 0 } : EstState).calibrating = true ∧
      0 < (((⟨4, 5, 6, 100⟩ : MotionSample).timestamp - 0) / 1000) ∧
      (((⟨4, 5, 6, 100⟩ : MotionSample).timestamp - 0) / 1000) ≤ 0.5 ∧
      50 ≤ CALIBRATION_SAMPLES) ∧
    ((let s' := motionStep ⟨0, 0, 0⟩ { initState with lastTimestamp := some 0 } ⟨4, 5, 6, 100⟩
      let wa := worldAccelOf ⟨0, 0, 0⟩ (⟨4, 5, 6, 100⟩ : MotionSample)
      let s0 : EstState := { initState with lastTimestamp := some 0 }
      s'.vel = s0.vel ∧
      s'.pos = s0.pos ∧
      s'.calibSamples = s0.calibSamples + 1 ∧
      s'.calibAccum =
        ⟨s0.calibAccum.x + wa.x, s0.calibAccum.y + wa.y, s0.calibAccum.z + wa.z⟩ ∧
      (s'.calibrating = false ↔ s0.calibSamples + 1 ≥ CALIBRATION_SAMPLES) ∧
      (s0.calibSamples + 1 ≥ CALIBRATION_SAMPLES →
        s'.accelBias =
          ⟨s'.calibAccum.x / ((s0.calibSamples + 1 : ℕ) : ℝ),
           s'.calibAccum.y / ((s0.calibSamples + 1 : ℕ) : ℝ),
           s'.calibAccum.z / ((s0.calibSamples + 1 : ℕ) : ℝ)⟩)) ∧
     (let sk := feed ⟨0, 0, 0⟩ { initState with lastTimestamp := some 0 }
         (calibFeed 50 1 2 3 0)
      sk.calibSamples = 50 ∧
      sk.vel = ⟨0, 0, 0⟩ ∧
      sk.pos = ⟨0, 0, 0⟩ ∧
      (50 < CALIBRATION_SAMPLES → sk.calibrating = true) ∧
      (50 = CALIBRATION_SAMPLES → sk.calibrating = false ∧ sk.accelBias = ⟨1, 2, 3⟩))) :=
  ⟨⟨rfl, rfl, by norm_num, by norm_num, by norm_num [CALIBRATION_SAMPLES]⟩,
   C3_bias_calibration ⟨0, 0, 0⟩ { initState with lastTimestamp := some 0 }
     ⟨4, 5, 6, 100⟩ 0 rfl rfl (by norm_num) (by norm_num) 1 2 3 0 50
     (by norm_num [CALIBRATION_SAMPLES])⟩

-- Arithmetic facts about list sums, means and population variance,
-- used to show a window of small magnitudes must test still.

theorem list_sum_le_card_mul (l : List ℝ) (c : ℝ) (h : ∀ a ∈ l, a ≤ c) :
    l.sum ≤ c * l.length := by
  induction l with
  | nil => simp
  | cons x xs ih =>
      simp only [List.sum_cons, List.length_cons]
      have hx : x ≤ c := h x (List.mem_cons_self x xs)
      have hxs : xs.sum ≤ c * xs.length := ih (fun a ha => h a (List.mem_cons_of_mem x ha))
      push_cast
      nlinarith

theorem list_sum_lt_card_mul (l : List ℝ) (c : ℝ) (hne : l ≠ []) (h : ∀ a ∈ l, a < c) :
    l.sum < c * l.length := by
  cases l with
  | nil => exact absurd rfl hne
  | cons x xs =>
      simp only [List.sum_cons, List.length_cons]
      have hx : x < c := h x (List.mem_cons_self x xs)
      have hxs : xs.sum ≤ c * xs.length :=
        list_sum_le_card_mul xs c (fun a ha => le_of_lt (h a (List.mem_cons_of_mem x ha)))
      push_cast
      nlinarith

theorem list_sum_sq_le (l : List ℝ) (c : ℝ) (h : ∀ a ∈ l, 0 ≤ a ∧ a ≤ c) :
    (l.map (fun v => v ^ 2)).sum ≤ c * l.sum := by
  induction l with
  | nil => simp
  | cons x xs ih =>
      simp only [List.map_cons, List.sum_cons]
      obtain ⟨hx0, hxc⟩ := h x (List.mem_cons_self x xs)
      have hxs := ih (fun a ha => h a (List.mem_cons_of_mem x ha))
      nlinarith

theorem list_sum_sq_dev (l : List ℝ) (m : ℝ) :
    (l.map (fun v => (v - m) ^ 2)).sum =
      (l.map (fun v => v ^ 2)).sum - 2 * m * l.sum + l.length * m ^ 2 := by
  induction l with
  | nil => simp
  | cons x xs ih =>
      simp only [List.map_cons, List.sum_cons, List.length_cons]
      rw [ih]
      push_cast
      ring

theorem meanOf_lt (l : List ℝ) (c : ℝ) (hne : l ≠ []) (h : ∀ a ∈ l, a < c) :
    meanOf l < c := by
  unfold meanOf
  have hlen : 0 < (l.length : ℝ) := by
    exact_mod_cast List.length_pos.mpr hne
  rw [div_lt_iff hlen]
  exact list_sum_lt_card_mul l c hne h

theorem varOf_le_quarter_sq (l : List ℝ) (c : ℝ) (hne : l ≠ [])
    (h : ∀ a ∈ l, 0 ≤ a ∧ a ≤ c) :
    varOf l ≤ c ^ 2 / 4 := by
  unfold varOf
  have hlen : 0 < (l.length : ℝ) := by
    exact_mod_cast List.length_pos.mpr hne
  have hsum : l.sum = l.length * meanOf l := by
    unfold meanOf
    field_simp
  rw [list_sum_sq_dev l (meanOf l), div_le_iff hlen]
  have hkey : (l.map (fun v => v ^ 2)).sum - 2 * meanOf l * l.sum +
      (l.length : ℝ) * meanOf l ^ 2 =
      (l.map (fun v => v ^ 2)).sum - (l.length : ℝ) * meanOf l ^ 2 := by
    rw [hsum]
    ring
  rw [hkey]
  have hsq : (l.map (fun v => v ^ 2)).sum ≤ c * l.sum := list_sum_sq_le l c h
  have h3 : c * l.sum = (l.length : ℝ) * (c * meanOf l) := by
    rw [hsum]
    ring
  nlinarith [mul_nonneg hlen.le (sq_nonneg (meanOf l - c / 2))]

/-- Any full window whose entries are all nonnegative and below the 0.6
threshold has variance below 0.1 and mean below 0.6, so it tests still. -/
theorem detectStillness_of_bounds (l : List ℝ) (hlen : l.length = ACCEL_BUFFER_SIZE)
    (h : ∀ a ∈ l, 0 ≤ a ∧ a < ZUPT_ACCEL_THRESHOLD) : detectStillness l := by
  have hne : l ≠ [] := by
    intro hl
    rw [hl] at hlen
    simp [ACCEL_BUFFER_SIZE] at hlen
  refine ⟨by simp [hlen], ?_, ?_⟩
  · have hv := varOf_le_quarter_sq l ZUPT_ACCEL_THRESHOLD hne
      (fun a ha => ⟨(h a ha).1, le_of_lt (h a ha).2⟩)
    have hq : (ZUPT_ACCEL_THRESHOLD : ℝ) ^ 2 / 4 < 0.1 := by
      norm_num [ZUPT_ACCEL_THRESHOLD]
    linarith
  · exact meanOf_lt l _ hne (fun a ha => (h a ha).2)

theorem pushBounded_length_eq {α : Type} (cap : ℕ) (xs : List α) (a : α)
    (h : xs.length ≤ cap) :
    (pushBounded cap xs a).length = min (xs.length + 1) cap := by
  unfold pushBounded
  by_cases hl : (xs ++ [a]).length > cap
  · rw [if_pos hl]
    simp only [List.length_tail, List.length_append, List.length_singleton] at *
    omega
  · rw [if_neg hl]
    simp only [List.length_append, List.length_singleton] at *
    omega

/-- If the window after the push tests still, the active step hard-resets
velocity to the exact zero vector. -/
theorem activeStep_vel_still (s : EstState) (wa : Vec3) (now dt : ℝ)
    (hstill : detectStillness ((activeStep s wa now dt).accelBuffer)) :
    (activeStep s wa now dt).vel = ⟨0, 0, 0⟩ := by
  simp only [activeStep] at hstill ⊢
  rw [if_pos (Or.inl hstill)]

theorem traj_succ (o : ℕ → Orientation) (d : ℕ → MotionSample) (s0 : EstState) (k : ℕ) :
    traj o d s0 (k + 1) = motionStep (o k) (traj o d s0 k) (d k) := rfl

theorem activeStep_filteredAccel (s : EstState) (wa : Vec3) (now dt : ℝ) :
    (activeStep s wa now dt).filteredAccel =
      ⟨LP_ALPHA * (wa.x - s.accelBias.x) + (1 - LP_ALPHA) * s.filteredAccel.x,
       LP_ALPHA * (wa.y - s.accelBias.y) + (1 - LP_ALPHA) * s.filteredAccel.y,
       LP_ALPHA * (wa.z - s.accelBias.z) + (1 - LP_ALPHA) * s.filteredAccel.z⟩ := rfl

/-- The acceleration magnitude pushed into the stillness window at step i of a
trajectory: the magnitude of the filtered acceleration stored in the next
state (position.js line 220). -/
noncomputable def trajAMag (o : ℕ → Orientation) (d : ℕ → MotionSample) (s0 : EstState)
    (i : ℕ) : ℝ :=
  Real.sqrt
    ((traj o d s0 (i + 1)).filteredAccel.x * (traj o d s0 (i + 1)).filteredAccel.x +
     (traj o d s0 (i + 1)).filteredAccel.y * (traj o d s0 (i + 1)).filteredAccel.y +
     (traj o d s0 (i + 1)).filteredAccel.z * (traj o d s0 (i + 1)).filteredAccel.z)

/-- Along a run of accepted Active-mode steps, the stillness window is the
last 20 pushed magnitudes over the initial window. -/
theorem traj_buffer (o : ℕ → Orientation) (d : ℕ → MotionSample) (s0 : EstState)
    (hcal : s0.calibrating = false) (hbuf : s0.accelBuffer.length ≤ ACCEL_BUFFER_SIZE)
    (hacc : ∀ i, i < 20 → ∃ last, (traj o d s0 i).lastTimestamp = some last ∧
        0 < ((d i).timestamp - last) / 1000 ∧ ((d i).timestamp - last) / 1000 ≤ 0.5) :
    ∀ k, k ≤ 20 →
      (traj o d s0 k).calibrating = false ∧
      (traj o d s0 k).accelBuffer =
        (s0.accelBuffer ++ (List.range k).map (trajAMag o d s0)).drop
          (s0.accelBuffer.length + k - ACCEL_BUFFER_SIZE) ∧
      (traj o d s0 k).accelBuffer.length =
        min (s0.accelBuffer.length + k) ACCEL_BUFFER_SIZE := by
  intro k
  induction k with
  | zero =>
      intro _
      have h00 : s0.accelBuffer.length + 0 - ACCEL_BUFFER_SIZE = 0 := by omega
      refine ⟨hcal, ?_, ?_⟩
      · rw [h00]
        simp [traj]
      · show s0.accelBuffer.length = _
        omega
  | succ k ih =>
      intro hk1
      have hk : k ≤ 20 := by omega
      have hklt : k < 20 := hk1
      obtain ⟨ihcal, ihbuf, ihlen⟩ := ih hk
      obtain ⟨last, hlast, hq0, hq5⟩ := hacc k hklt
      have hstep : traj o d s0 (k + 1) =
          activeStep { traj o d s0 k with lastTimestamp := some (d k).timestamp }
            (worldAccelOf (o k) (d k)) (d k).timestamp (((d k).timestamp - last) / 1000) :=
        (traj_succ o d s0 k).trans
          (motionStep_active (o k) (traj o d s0 k) (d k) last hlast hq0 hq5 ihcal)
      have hb : (traj o d s0 (k + 1)).accelBuffer =
          pushBounded ACCEL_BUFFER_SIZE (traj o d s0 k).accelBuffer
            (trajAMag o d s0 k) := by
        conv_lhs => rw [hstep, activeStep_accelBuffer]
        rw [← hstep]
        rfl
      refine ⟨?_, ?_, ?_⟩
      · rw [hstep]
        exact ihcal
      · rw [hb, ihbuf]
        rw [pushBounded_eq_drop _ _ _ (by rw [← ihbuf, ihlen]; omega)]
        rw [← List.drop_append_of_le_length
          (by simp only [List.length_append, List.length_map, List.length_range]; omega)]
        rw [List.drop_drop]
        have harr : s0.accelBuffer ++ (List.range k).map (trajAMag o d s0) ++
            [trajAMag o d s0 k] =
            s0.accelBuffer ++ (List.range (k + 1)).map (trajAMag o d s0) := by
          rw [List.range_succ, List.map_append, ← List.append_assoc]
          rfl
        rw [harr]
        congr 1
        simp only [List.length_drop, List.length_append, List.length_map, List.length_range]
        omega
      · rw [hb, pushBounded_length_eq _ _ _ (by rw [ihlen]; omega), ihlen]
        omega

/-- C7: from any Active-mode state with non-zero velocity satisfying the
window-capacity invariant, a run of 20 accepted samples along which every
pushed filtered-acceleration magnitude stays below the 0.6 stillness
threshold fills the window with sub-threshold values, so the stillness
detector fires and velocity is exactly the zero vector by the 20th sample. -/
theorem C7_zupt_snap (o : ℕ → Orientation) (d : ℕ → MotionSample) (s0 : EstState)
    (hcal : s0.calibrating = false)
    (hvel : s0.vel ≠ ⟨0, 0, 0⟩)
    (hbuf : s0.accelBuffer.length ≤ ACCEL_BUFFER_SIZE)
    (hacc : ∀ i, i < 20 → ∃ last, (traj o d s0 i).lastTimestamp = some last ∧
        0 < ((d i).timestamp - last) / 1000 ∧ ((d i).timestamp - last) / 1000 ≤ 0.5)
    (hmag : ∀ i, i < 20 → trajAMag o d s0 i < ZUPT_ACCEL_THRESHOLD) :
    (traj o d s0 20).vel = ⟨0, 0, 0⟩ := by
  have hinv := traj_buffer o d s0 hcal hbuf hacc
  obtain ⟨hcal19, -, -⟩ := hinv 19 (by norm_num)
  obtain ⟨-, hbuf20, -⟩ := hinv 20 (le_refl 20)
  obtain ⟨last, hlast, hq0, hq5⟩ := hacc 19 (by norm_num)
  have hstep : traj o d s0 20 =
      activeStep { traj o d s0 19 with lastTimestamp := some (d 19).timestamp }
        (worldAccelOf (o 19) (d 19)) (d 19).timestamp (((d 19).timestamp - last) / 1000) :=
    (traj_succ o d s0 19).trans
      (motionStep_active (o 19) (traj o d s0 19) (d 19) last hlast hq0 hq5 hcal19)
  have hstill : detectStillness ((traj o d s0 20).accelBuffer) := by
    rw [hbuf20]
    have hdrop20 : s0.accelBuffer.length + 20 - ACCEL_BUFFER_SIZE =
        s0.accelBuffer.length := by
      unfold ACCEL_BUFFER_SIZE at hbuf ⊢
      omega
    rw [hdrop20, List.drop_left]
    apply detectStillness_of_bounds
    · simp [ACCEL_BUFFER_SIZE]
    · intro a ha
      simp only [List.mem_map, List.mem_range] at ha
      obtain ⟨i, hi, rfl⟩ := ha
      exact ⟨Real.sqrt_nonneg _, hmag i hi⟩
  rw [hstep]
  apply activeStep_vel_still
  rw [← hstep]
  exact hstill

-- A concrete stationary run for the ZUPT claim: flat orientation, samples of
-- pure gravity every 100 ms, starting from an Active state moving at 1 m/s.

noncomputable def zuptO : ℕ → Orientation := fun _ => ⟨0, 0, 0⟩

noncomputable def zuptD : ℕ → MotionSample :=
  fun i => ⟨0, 0, GRAVITY, 100 * ((i : ℕ) + 1 : ℝ)⟩

noncomputable def zuptS0 : EstState :=
  { initState with
      vel := ⟨1, 0, 0⟩,
      lastTimestamp := some 0,
      calibrating := false,
      accelBuffer := List.replicate 20 0 }

theorem zupt_run_invariant (k : ℕ) :
    (traj zuptO zuptD zuptS0 k).calibrating = false ∧
    (traj zuptO zuptD zuptS0 k).accelBias = ⟨0, 0, 0⟩ ∧
    (traj zuptO zuptD zuptS0 k).filteredAccel = ⟨0, 0, 0⟩ ∧
    (traj zuptO zuptD zuptS0 k).lastTimestamp = some (100 * (k : ℝ)) := by
  induction k with
  | zero =>
      refine ⟨rfl, rfl, rfl, ?_⟩
      show some (0 : ℝ) = _
      norm_num
  | succ k ih =>
      obtain ⟨ihc, ihb, ihf, ihl⟩ := ih
      have hts : (zuptD k).timestamp = 100 * ((k : ℝ) + 1) := rfl
      have hdt : ((zuptD k).timestamp - 100 * (k : ℝ)) / 1000 = 1 / 10 := by
        rw [hts]
        ring
      have hstep : traj zuptO zuptD zuptS0 (k + 1) =
          activeStep { traj zuptO zuptD zuptS0 k with
              lastTimestamp := some (zuptD k).timestamp }
            (worldAccelOf (zuptO k) (zuptD k)) (zuptD k).timestamp
            (((zuptD k).timestamp - 100 * (k : ℝ)) / 1000) :=
        (traj_succ zuptO zuptD zuptS0 k).trans
          (motionStep_active (zuptO k) (traj zuptO zuptD zuptS0 k) (zuptD k)
            (100 * (k : ℝ)) ihl (by rw [hdt]; norm_num) (by rw [hdt]; norm_num) ihc)
      have hwa : worldAccelOf (zuptO k) (zuptD k) = ⟨0, 0, 0⟩ := by
        show worldAccelOf ⟨0, 0, 0⟩ (zuptD k) = _
        rw [worldAccelOf_zero]
        ext <;> simp [zuptD]
      refine ⟨?_, ?_, ?_, ?_⟩
      · rw [hstep]
        exact ihc
      · rw [hstep]
        exact ihb
      · rw [hstep, activeStep_filteredAccel, hwa]
        ext <;> simp [ihb, ihf]
      · rw [hstep]
        show some ((zuptD k).timestamp) = _
        rw [hts]
        push_cast
        ring_nf

/-- Witness for C7 at the concrete stationary run. -/
theorem C7_witness :
    (zuptS0.calibrating = false ∧
      zuptS0.vel ≠ ⟨0, 0, 0⟩ ∧
      zuptS0.accelBuffer.length ≤ ACCEL_BUFFER_SIZE ∧
      (∀ i, i < 20 → ∃ last, (traj zuptO zuptD zuptS0 i).lastTimestamp = some last ∧
        0 < ((zuptD i).timestamp - last) / 1000 ∧
        ((zuptD i).timestamp - last) / 1000 ≤ 0.5) ∧
      (∀ i, i < 20 → trajAMag zuptO zuptD zuptS0 i < ZUPT_ACCEL_THRESHOLD)) ∧
    (traj zuptO zuptD zuptS0 20).vel = ⟨0, 0, 0⟩ := by
  have hacc : ∀ i, i < 20 → ∃ last,
      (traj zuptO zuptD zuptS0 i).lastTimestamp = some last ∧
      0 < ((zuptD i).timestamp - last) / 1000 ∧
      ((zuptD i).timestamp - last) / 1000 ≤ 0.5 := by
    intro i _
    refine ⟨100 * (i : ℝ), (zupt_run_invariant i).2.2.2, ?_, ?_⟩
    · rw [show ((zuptD i).timestamp - 100 * (i : ℝ)) / 1000 = 1 / 10 by
        show (100 * ((i : ℝ) + 1) - 100 * (i : ℝ)) / 1000 = 1 / 10
        ring]
      norm_num
    · rw [show ((zuptD i).timestamp - 100 * (i : ℝ)) / 1000 = 1 / 10 by
        show (100 * ((i : ℝ) + 1) - 100 * (i : ℝ)) / 1000 = 1 / 10
        ring]
      norm_num
  have hmag : ∀ i, i < 20 → trajAMag zuptO zuptD zuptS0 i < ZUPT_ACCEL_THRESHOLD := by
    intro i _
    unfold trajAMag
    rw [(zupt_run_invariant (i + 1)).2.2.1]
    norm_num [Real.sqrt_zero, ZUPT_ACCEL_THRESHOLD]
  have hvel : zuptS0.vel ≠ ⟨0, 0, 0⟩ := by
    simp [zuptS0, Vec3.mk.injEq]
  have hbuf : zuptS0.accelBuffer.length ≤ ACCEL_BUFFER_SIZE := by
    simp [zuptS0, ACCEL_BUFFER_SIZE]
  exact ⟨⟨rfl, hvel, hbuf, hacc, hmag⟩,
    C7_zupt_snap zuptO zuptD zuptS0 rfl hvel hbuf hacc hmag⟩

end Sensor
